import Mathlib

/-! # LibRaw safe-math guard primitives (`internal/libraw_safe_math.h`)

A shallow embedding of the header's integer functions.

* A `size_t` value is a natural number below `2 ^ w`, where `w` is the platform
  width of `size_t`; unsigned arithmetic wraps modulo `2 ^ w`.
* An `int` value is an integer in `[INT_MIN, INT_MAX]` (32 bits), an `int64_t`
  value an integer in `[INT64_MIN, INT64_MAX]`.
* Every C operation whose behaviour is undefined on some operands (division by
  zero, `MIN / -1`, signed overflow) is a guarded operation returning `none`
  there, so a function of the header is a function into `Option`: `none` means
  that the C code would have executed an undefined operation.
* A function `int f(..., T *result)` returns the pair `(status, *result)`.
-/

namespace LibRaw

/-! ## Native operations -/

/-- Largest `size_t` value for a `size_t` of `w` bits. -/
def SIZE_MAX (w : Nat) : Nat := 2 ^ w - 1

/-- Largest `int` value (`limits.h`, 32-bit `int`). -/
def INT_MAX : Int := 2147483647

/-- Smallest `int` value (`limits.h`, 32-bit `int`). -/
def INT_MIN : Int := -2147483648

/-- Largest `unsigned int` value (`limits.h`, 32-bit `unsigned int`). -/
def UINT_MAX : Nat := 4294967295

/-- Largest `int64_t` value (`stdint.h`). -/
def INT64_MAX : Int := 9223372036854775807

/-- Smallest `int64_t` value (`stdint.h`). -/
def INT64_MIN : Int := -9223372036854775808

/-- Unsigned multiplication on `w` bits: wraps modulo `2 ^ w`. -/
def umul (w : Nat) (a b : Nat) : Nat := (a * b) % 2 ^ w

/-- Unsigned addition on `w` bits: wraps modulo `2 ^ w`. -/
def uadd (w : Nat) (a b : Nat) : Nat := (a + b) % 2 ^ w

/-- Unsigned subtraction on `w` bits (operands below `2 ^ w`): wraps modulo `2 ^ w`. -/
def usub (w : Nat) (a b : Nat) : Nat := (a + 2 ^ w - b) % 2 ^ w

/-- Unsigned division; undefined for a zero divisor. -/
def udiv (a b : Nat) : Option Nat := if b = 0 then none else some (a / b)

/-- Unsigned remainder; undefined for a zero divisor. -/
def umod (a b : Nat) : Option Nat := if b = 0 then none else some (a % b)

/-- A signed result of a type with range `[lo, hi]`; undefined when the
mathematical value is out of range (signed overflow). -/
def signed (lo hi x : Int) : Option Int := if lo ≤ x ∧ x ≤ hi then some x else none

/-- Signed multiplication in a type with range `[lo, hi]`. -/
def smul (lo hi a b : Int) : Option Int := signed lo hi (a * b)

/-- Signed addition in a type with range `[lo, hi]`. -/
def sadd (lo hi a b : Int) : Option Int := signed lo hi (a + b)

/-- Signed subtraction in a type with range `[lo, hi]`. -/
def ssub (lo hi a b : Int) : Option Int := signed lo hi (a - b)

/-- Signed division in a type with minimum `lo`: truncates toward zero;
undefined for a zero divisor and for `lo / -1`. -/
def sdiv (lo a b : Int) : Option Int :=
  if b = 0 ∨ (a = lo ∧ b = -1) then none else some (Int.tdiv a b)

/-- Signed remainder in a type with minimum `lo`: sign of the dividend;
undefined for a zero divisor and for `lo % -1`. -/
def smod (lo a b : Int) : Option Int :=
  if b = 0 ∨ (a = lo ∧ b = -1) then none else some (Int.tmod a b)

/-! ## Safe multiplication with overflow detection -/

/-- The function `safe_mul_size_t(a, b, &result)`: the pair `(status, *result)`. -/
def safe_mul_size_t (w : Nat) (a b : Nat) : Option (Int × Nat) :=
  if a = 0 ∨ b = 0 then
    some (0, 0)
  else do
    let q ← udiv (SIZE_MAX w) b
    if a > q then
      some (-1, 0)
    else
      some (0, umul w a b)

/-- The function `safe_mul_int(a, b, &result)`: the pair `(status, *result)`. -/
def safe_mul_int (a b : Int) : Option (Int × Int) :=
  -- `*result = a * b; return 0;`
  let product : Option (Int × Int) := do
    let p ← smul INT_MIN INT_MAX a b
    some (0, p)
  if a = 0 ∨ b = 0 then
    some (0, 0)
  else if a > 0 then
    if b > 0 then do
      let q ← sdiv INT_MIN INT_MAX b
      if a > q then some (-1, 0) else product
    else do
      let q ← sdiv INT_MIN INT_MIN a
      if b < q then some (-1, 0) else product
  else
    if b > 0 then do
      let q ← sdiv INT_MIN INT_MIN b
      if a < q then some (-1, 0) else product
    else if a ≠ 0 then do
      let q ← sdiv INT_MIN INT_MAX a
      if b < q then some (-1, 0) else product
    else product

/-- The function `safe_mul_uint(a, b, &result)`: the pair `(status, *result)`. -/
def safe_mul_uint (a b : Nat) : Option (Int × Nat) :=
  if a = 0 ∨ b = 0 then
    some (0, 0)
  else do
    let q ← udiv UINT_MAX b
    if a > q then
      some (-1, 0)
    else
      some (0, umul 32 a b)

/-- The function `safe_mul_int64(a, b, &result)`: the pair `(status, *result)`. -/
def safe_mul_int64 (a b : Int) : Option (Int × Int) :=
  -- `*result = a * b; return 0;`
  let product : Option (Int × Int) := do
    let p ← smul INT64_MIN INT64_MAX a b
    some (0, p)
  if a = 0 ∨ b = 0 then
    some (0, 0)
  else if a > 0 then
    if b > 0 then do
      let q ← sdiv INT64_MIN INT64_MAX b
      if a > q then some (-1, 0) else product
    else do
      let q ← sdiv INT64_MIN INT64_MIN a
      if b < q then some (-1, 0) else product
  else
    if b > 0 then do
      let q ← sdiv INT64_MIN INT64_MIN b
      if a < q then some (-1, 0) else product
    else if a ≠ 0 then do
      let q ← sdiv INT64_MIN INT64_MAX a
      if b < q then some (-1, 0) else product
    else product

/-- The common shape of `safe_mul_int` and `safe_mul_int64`: the same branches
over a signed type with range `[lo, hi]`. Used to reason about both at once. -/
def mulSigned (lo hi a b : Int) : Option (Int × Int) :=
  let product : Option (Int × Int) := do
    let p ← smul lo hi a b
    some (0, p)
  if a = 0 ∨ b = 0 then
    some (0, 0)
  else if a > 0 then
    if b > 0 then do
      let q ← sdiv lo hi b
      if a > q then some (-1, 0) else product
    else do
      let q ← sdiv lo lo a
      if b < q then some (-1, 0) else product
  else
    if b > 0 then do
      let q ← sdiv lo lo b
      if a < q then some (-1, 0) else product
    else if a ≠ 0 then do
      let q ← sdiv lo hi a
      if b < q then some (-1, 0) else product
    else product

/-! ## Safe addition with overflow detection -/

/-- The short-circuit `l && r` of C: `r` is evaluated only when `l` holds. -/
def cand (l : Bool) (r : Option Bool) : Option Bool := if l then r else some false

/-- The short-circuit `l || r` of C: `r` is evaluated only when `l` does not hold. -/
def cor (l r : Option Bool) : Option Bool := do
  let x ← l
  if x then some true else r

/-- The function `safe_add_size_t(a, b, &result)`: the pair `(status, *result)`. -/
def safe_add_size_t (w : Nat) (a b : Nat) : Int × Nat :=
  if a > usub w (SIZE_MAX w) b then
    (-1, 0)
  else
    (0, uadd w a b)

/-- The function `safe_add_int(a, b, &result)`: the pair `(status, *result)`. -/
def safe_add_int (a b : Int) : Option (Int × Int) := do
  let overflow ←
    cor (cand (b > 0) (do let d ← ssub INT_MIN INT_MAX INT_MAX b; some (decide (a > d))))
        (cand (b < 0) (do let d ← ssub INT_MIN INT_MAX INT_MIN b; some (decide (a < d))))
  if overflow then
    some (-1, 0)
  else do
    let s ← sadd INT_MIN INT_MAX a b
    some (0, s)

/-! ## Safe array index validation -/

/-- The function `safe_array_index(index, array_size)` on a `w`-bit `size_t`. -/
def safe_array_index (w : Nat) (index array_size : Nat) : Nat :=
  if array_size = 0 then
    0
  else if index ≥ array_size then
    usub w array_size 1
  else
    index

/-- The function `safe_array_index_int(index, array_size)`. -/
def safe_array_index_int (index array_size : Int) : Option Int :=
  if array_size ≤ 0 ∨ index < 0 then
    some 0
  else if index ≥ array_size then
    ssub INT_MIN INT_MAX array_size 1
  else
    some index

/-! ## Safe allocation size calculation -/

/-- The function `safe_alloc_size(count, element_size)`. -/
def safe_alloc_size (w : Nat) (count element_size : Nat) : Option Nat := do
  let (status, result) ← safe_mul_size_t w count element_size
  if status ≠ 0 then some 0 else some result

/-- The function `safe_alloc_size_2d(dim_w, dim_h, element_size)`. -/
def safe_alloc_size_2d (w : Nat) (dim_w dim_h element_size : Nat) : Option Nat := do
  let (status, temp) ← safe_mul_size_t w dim_w dim_h
  if status ≠ 0 then
    some 0
  else do
    let (status, result) ← safe_mul_size_t w temp element_size
    if status ≠ 0 then some 0 else some result

/-- The function `safe_alloc_size_3(a, b, c)`. -/
def safe_alloc_size_3 (w : Nat) (a b c : Nat) : Option Nat := do
  let (status, temp) ← safe_mul_size_t w a b
  if status ≠ 0 then
    some 0
  else do
    let (status, result) ← safe_mul_size_t w temp c
    if status ≠ 0 then some 0 else some result

/-! ## Safe file offset calculation -/

/-- The function `safe_file_offset(base, offset)`. -/
def safe_file_offset (base offset : Int) : Option Int := do
  let over ← cand (offset > 0)
    (do let d ← ssub INT64_MIN INT64_MAX INT64_MAX offset; some (decide (base > d)))
  if over then
    some (-1)
  else do
    let under ← cand (offset < 0)
      (do let d ← ssub INT64_MIN INT64_MAX INT64_MIN offset; some (decide (base < d)))
    if under then
      some (-1)
    else do
      let result ← sadd INT64_MIN INT64_MAX base offset
      if result < 0 then some (-1) else some result

/-! ## Safe division and modulo -/

/-- The function `safe_div_int(numerator, divisor, default_val)`. -/
def safe_div_int (numerator divisor default_val : Int) : Option Int :=
  if divisor = 0 then
    some default_val
  else
    sdiv INT_MIN numerator divisor

/-- The function `safe_div_uint(numerator, divisor, default_val)`. -/
def safe_div_uint (numerator divisor default_val : Nat) : Option Nat :=
  if divisor = 0 then
    some default_val
  else
    udiv numerator divisor

/-- The function `safe_mod_int(numerator, divisor)`. -/
def safe_mod_int (numerator divisor : Int) : Option Int :=
  if divisor = 0 then
    some 0
  else
    smod INT_MIN numerator divisor

/-- The function `safe_mod_uint(numerator, divisor)`. -/
def safe_mod_uint (numerator divisor : Nat) : Option Nat :=
  if divisor = 0 then
    some 0
  else
    umod numerator divisor

/-! ## Allocation budget check -/

/-- The function `is_allocation_reasonable(size, max_mb)`: the `int` returned.
The constant `1024ULL * 1024ULL` is computed on 64 bits and converted to the
`w`-bit `size_t` of the parameter it is passed for. -/
def is_allocation_reasonable (w : Nat) (size max_mb : Nat) : Option Int := do
  let (status, max_bytes) ← safe_mul_size_t w max_mb (umul 64 1024 1024 % 2 ^ w)
  if status ≠ 0 then
    some 0
  else
    some (if size ≤ max_bytes then 1 else 0)

/-! ## Safe left shift -/

/-- Left shift of an unsigned value of `w` bits by an `int` amount: the bits
shifted out are lost; undefined for a negative amount and for an amount of `w`
or more. -/
def ushl (w : Nat) (value : Nat) (shift : Int) : Option Nat :=
  if shift < 0 ∨ shift ≥ w then none else some ((value <<< shift.toNat) % 2 ^ w)

/-- The function `safe_lshift_uint(value, shift)`, for a 32-bit `unsigned int`
(`sizeof(unsigned int) * 8` is `32`). -/
def safe_lshift_uint (value : Nat) (shift : Int) : Option Nat :=
  if shift < 0 ∨ shift ≥ 32 then
    some 0
  else
    ushl 32 value shift

/-- The function `safe_lshift_uint64(value, shift)`. -/
def safe_lshift_uint64 (value : Nat) (shift : Int) : Option Nat :=
  if shift < 0 ∨ shift ≥ 64 then
    some 0
  else
    ushl 64 value shift

/-! ## Theorems -/

/-- Closed form of `safe_mul_size_t`: the status and the result only depend on
whether the mathematical product fits. -/
theorem safe_mul_size_t_eq (w a b : Nat) :
    safe_mul_size_t w a b =
      if a * b ≤ SIZE_MAX w then some (0, a * b) else some (-1, 0) := by
  have hpos : 0 < 2 ^ w := Nat.two_pow_pos w
  unfold safe_mul_size_t
  by_cases h0 : a = 0 ∨ b = 0
  · rw [if_pos h0]
    have : a * b = 0 := by rcases h0 with h | h <;> simp [h]
    simp [this]
  · rw [if_neg h0]
    have hb : 0 < b := Nat.pos_of_ne_zero (fun h => h0 (Or.inr h))
    have hq : udiv (SIZE_MAX w) b = some (SIZE_MAX w / b) := by
      simp [udiv, Nat.pos_iff_ne_zero.mp hb]
    have hiff : SIZE_MAX w / b < a ↔ SIZE_MAX w < a * b := Nat.div_lt_iff_lt_mul hb
    simp only [hq, Option.bind_eq_bind, Option.some_bind, gt_iff_lt]
    by_cases hov : SIZE_MAX w / b < a
    · rw [if_pos hov, if_neg (by have := hiff.mp hov; omega)]
    · have hfit : a * b ≤ SIZE_MAX w := by
        have := mt hiff.mpr hov; omega
      rw [if_neg hov, if_pos hfit]
      have : a * b < 2 ^ w := by unfold SIZE_MAX at hfit; omega
      simp [umul, Nat.mod_eq_of_lt this]

/-- C1: for `size_t` operands `a`, `b` of a `w`-bit `size_t`, `safe_mul_size_t`
returns status `0` with the exact product `a * b` if and only if
`a * b ≤ SIZE_MAX`, and otherwise returns status `-1` with result `0`. -/
theorem safe_mul_size_t_spec (w a b : Nat) :
    (safe_mul_size_t w a b = some (0, a * b) ↔ a * b ≤ SIZE_MAX w) ∧
    (¬ a * b ≤ SIZE_MAX w → safe_mul_size_t w a b = some (-1, 0)) := by
  rw [safe_mul_size_t_eq]
  by_cases h : a * b ≤ SIZE_MAX w
  · simp [h]
  · simp [h]

/-- The assertions of `test_safe_mul_size_t`, on a 64-bit `size_t`. -/
theorem safe_mul_size_t_tests :
    safe_mul_size_t 64 100 200 = some (0, 20000) ∧
    safe_mul_size_t 64 0 1000 = some (0, 0) ∧
    safe_mul_size_t 64 1000 0 = some (0, 0) ∧
    safe_mul_size_t 64 12345 1 = some (0, 12345) ∧
    safe_mul_size_t 64 (SIZE_MAX 64) 2 = some (-1, 0) ∧
    safe_mul_size_t 64 (SIZE_MAX 64 / 2 + 1) 2 = some (-1, 0) ∧
    safe_mul_size_t 64 (SIZE_MAX 64 / 2) 2 = some (0, SIZE_MAX 64 - 1) := by
  decide

/-! ### Signed multiplication -/

/-- Truncating division of a non-negative bound by a positive divisor. -/
theorem tdiv_lt_iff_pos (M a b : Int) (hM : 0 ≤ M) (hb : 0 < b) :
    Int.tdiv M b < a ↔ M < a * b := by
  rw [Int.tdiv_eq_ediv hM (le_of_lt hb)]
  exact Int.ediv_lt_iff_lt_mul hb

/-- Truncating division of a non-positive bound by a positive divisor. -/
theorem lt_tdiv_iff_neg (m a b : Int) (hm : m ≤ 0) (ha : 0 < a) :
    b < Int.tdiv m a ↔ a * b < m := by
  have h1 : Int.tdiv m a = -((-m) / a) := by
    have : m = -(-m) := by omega
    rw [this, Int.neg_tdiv, Int.tdiv_eq_ediv (by omega) (le_of_lt ha)]
    simp
  rw [h1]
  have h2 : (-m) / a < -b ↔ -m < -b * a := Int.ediv_lt_iff_lt_mul ha
  constructor
  · intro h
    have := h2.mp (by omega)
    nlinarith
  · intro h
    have := h2.mpr (by nlinarith)
    omega

/-- Truncating division of a non-negative bound by a negative divisor. -/
theorem lt_tdiv_iff_neg_neg (M a b : Int) (hM : 0 ≤ M) (ha : a < 0) :
    b < Int.tdiv M a ↔ M < a * b := by
  have h1 : Int.tdiv M a = -(M / (-a)) := by
    have : a = -(-a) := by omega
    rw [this, Int.tdiv_neg, Int.tdiv_eq_ediv hM (by omega)]
    simp
  rw [h1]
  have h2 : M / (-a) < -b ↔ M < -b * -a := Int.ediv_lt_iff_lt_mul (by omega)
  constructor
  · intro h
    have := h2.mp (by omega)
    nlinarith
  · intro h
    have := h2.mpr (by nlinarith)
    omega

/-- A defined signed division is the truncating quotient. -/
theorem sdiv_eq_some (lo a b : Int) (hb : b ≠ 0) (h : a ≠ lo ∨ b ≠ -1) :
    sdiv lo a b = some (Int.tdiv a b) := by
  unfold sdiv
  rw [if_neg]
  rintro (h0 | ⟨h1, h2⟩)
  · exact hb h0
  · rcases h with h | h
    · exact h h1
    · exact h h2

/-- Closed form of the signed multiplication over a range `[lo, hi]` with
`lo < 0 ≤ hi`: every operation of the check is defined, and the status and the
result only depend on whether the mathematical product fits. -/
theorem mulSigned_eq (lo hi a b : Int) (hlo : lo < 0) (hhi : 0 ≤ hi) :
    mulSigned lo hi a b =
      if lo ≤ a * b ∧ a * b ≤ hi then some (0, a * b) else some (-1, 0) := by
  have hne : hi ≠ lo := by omega
  unfold mulSigned
  simp only []
  by_cases h0 : a = 0 ∨ b = 0
  · rw [if_pos h0]
    have : a * b = 0 := by rcases h0 with h | h <;> simp [h]
    rw [this, if_pos ⟨by omega, hhi⟩]
  · rw [if_neg h0]
    have ha0 : a ≠ 0 := fun h => h0 (Or.inl h)
    have hb0 : b ≠ 0 := fun h => h0 (Or.inr h)
    by_cases ha : a > 0
    · rw [if_pos ha]
      by_cases hb : b > 0
      · rw [if_pos hb, sdiv_eq_some lo hi b hb0 (Or.inl hne)]
        have hiff := tdiv_lt_iff_pos hi a b hhi hb
        have hpos : 0 < a * b := Int.mul_pos ha hb
        simp only [Option.bind_eq_bind, Option.some_bind, gt_iff_lt]
        by_cases hov : Int.tdiv hi b < a
        · rw [if_pos hov, if_neg (by have := hiff.mp hov; omega)]
        · have hfit : lo ≤ a * b ∧ a * b ≤ hi := by
            have := mt hiff.mpr hov; omega
          rw [if_neg hov, if_pos hfit]
          simp [smul, signed, hfit]
      · rw [if_neg hb, sdiv_eq_some lo lo a ha0 (Or.inr (by omega))]
        have hb' : b < 0 := by omega
        have hiff := lt_tdiv_iff_neg lo a b (le_of_lt hlo) ha
        have hneg : a * b < 0 := Int.mul_neg_of_pos_of_neg ha hb'
        simp only [Option.bind_eq_bind, Option.some_bind]
        by_cases hov : b < Int.tdiv lo a
        · rw [if_pos hov, if_neg (by have := hiff.mp hov; omega)]
        · have hfit : lo ≤ a * b ∧ a * b ≤ hi := by
            have := mt hiff.mpr hov; omega
          rw [if_neg hov, if_pos hfit]
          simp [smul, signed, hfit]
    · rw [if_neg ha]
      have ha' : a < 0 := by omega
      by_cases hb : b > 0
      · rw [if_pos hb, sdiv_eq_some lo lo b hb0 (Or.inr (by omega))]
        have hiff := lt_tdiv_iff_neg lo b a (le_of_lt hlo) hb
        have hneg : a * b < 0 := Int.mul_neg_of_neg_of_pos ha' hb
        rw [mul_comm b a] at hiff
        simp only [Option.bind_eq_bind, Option.some_bind]
        by_cases hov : a < Int.tdiv lo b
        · rw [if_pos hov, if_neg (by have := hiff.mp hov; omega)]
        · have hfit : lo ≤ a * b ∧ a * b ≤ hi := by
            have := mt hiff.mpr hov; omega
          rw [if_neg hov, if_pos hfit]
          simp [smul, signed, hfit]
      · rw [if_neg hb, if_pos ha0, sdiv_eq_some lo hi a ha0 (Or.inl hne)]
        have hb' : b < 0 := by omega
        have hiff := lt_tdiv_iff_neg_neg hi a b hhi ha'
        have hpos : 0 < a * b := Int.mul_pos_of_neg_of_neg ha' hb'
        simp only [Option.bind_eq_bind, Option.some_bind]
        by_cases hov : b < Int.tdiv hi a
        · rw [if_pos hov, if_neg (by have := hiff.mp hov; omega)]
        · have hfit : lo ≤ a * b ∧ a * b ≤ hi := by
            have := mt hiff.mpr hov; omega
          rw [if_neg hov, if_pos hfit]
          simp [smul, signed, hfit]

/-- The function `safe_mul_int` is the signed multiplication over `[INT_MIN, INT_MAX]`. -/
theorem safe_mul_int_eq_mulSigned (a b : Int) :
    safe_mul_int a b = mulSigned INT_MIN INT_MAX a b := rfl

/-- The function `safe_mul_int64` is the signed multiplication over
`[INT64_MIN, INT64_MAX]`. -/
theorem safe_mul_int64_eq_mulSigned (a b : Int) :
    safe_mul_int64 a b = mulSigned INT64_MIN INT64_MAX a b := rfl

/-- C2: for signed 32-bit operands `a`, `b`, `safe_mul_int` returns status `0`
with the exact product `a * b` if and only if `INT_MIN ≤ a * b ≤ INT_MAX`, and
otherwise returns status `-1` with result `0`; `INT_MIN * 1` and `1 * INT_MIN`
succeed with `INT_MIN`, `INT_MIN * -1` and `-1 * INT_MIN` fail. -/
theorem safe_mul_int_spec (a b : Int) :
    (safe_mul_int a b = some (0, a * b) ↔ INT_MIN ≤ a * b ∧ a * b ≤ INT_MAX) ∧
    (¬ (INT_MIN ≤ a * b ∧ a * b ≤ INT_MAX) → safe_mul_int a b = some (-1, 0)) ∧
    safe_mul_int INT_MIN 1 = some (0, INT_MIN) ∧
    safe_mul_int 1 INT_MIN = some (0, INT_MIN) ∧
    safe_mul_int INT_MIN (-1) = some (-1, 0) ∧
    safe_mul_int (-1) INT_MIN = some (-1, 0) := by
  refine ⟨?_, ?_, by decide, by decide, by decide, by decide⟩
  · rw [safe_mul_int_eq_mulSigned, mulSigned_eq _ _ _ _ (by decide) (by decide)]
    by_cases h : INT_MIN ≤ a * b ∧ a * b ≤ INT_MAX
    · simp [h]
    · simp [h]
  · intro h
    rw [safe_mul_int_eq_mulSigned, mulSigned_eq _ _ _ _ (by decide) (by decide), if_neg h]

/-- Evaluations of `safe_mul_int` around the edges of the `int` range, in each of
the four sign branches. -/
theorem safe_mul_int_tests :
    safe_mul_int 0 INT_MIN = some (0, 0) ∧
    safe_mul_int 46340 46340 = some (0, 2147395600) ∧
    safe_mul_int 46341 46341 = some (-1, 0) ∧
    safe_mul_int 65536 (-32768) = some (0, INT_MIN) ∧
    safe_mul_int 65536 (-32769) = some (-1, 0) ∧
    safe_mul_int (-32768) 65536 = some (0, INT_MIN) ∧
    safe_mul_int (-32769) 65536 = some (-1, 0) ∧
    safe_mul_int (-65536) (-32768) = some (-1, 0) ∧
    safe_mul_int (-1) (-INT_MAX) = some (0, INT_MAX) ∧
    safe_mul_int (-INT_MAX) (-1) = some (0, INT_MAX) ∧
    safe_mul_int INT_MIN INT_MIN = some (-1, 0) ∧
    safe_mul_int INT_MAX INT_MAX = some (-1, 0) := by
  decide

/-- C3: for signed 64-bit operands `a`, `b`, `safe_mul_int64` returns status `0`
with the exact product `a * b` if and only if `INT64_MIN ≤ a * b ≤ INT64_MAX`,
and otherwise returns status `-1` with result `0`. -/
theorem safe_mul_int64_spec (a b : Int) :
    (safe_mul_int64 a b = some (0, a * b) ↔ INT64_MIN ≤ a * b ∧ a * b ≤ INT64_MAX) ∧
    (¬ (INT64_MIN ≤ a * b ∧ a * b ≤ INT64_MAX) → safe_mul_int64 a b = some (-1, 0)) := by
  refine ⟨?_, ?_⟩
  · rw [safe_mul_int64_eq_mulSigned, mulSigned_eq _ _ _ _ (by decide) (by decide)]
    by_cases h : INT64_MIN ≤ a * b ∧ a * b ≤ INT64_MAX
    · simp [h]
    · simp [h]
  · intro h
    rw [safe_mul_int64_eq_mulSigned, mulSigned_eq _ _ _ _ (by decide) (by decide), if_neg h]

/-- Evaluations of `safe_mul_int64` around the edges of the `int64_t` range. -/
theorem safe_mul_int64_tests :
    safe_mul_int64 INT64_MIN 1 = some (0, INT64_MIN) ∧
    safe_mul_int64 1 INT64_MIN = some (0, INT64_MIN) ∧
    safe_mul_int64 INT64_MIN (-1) = some (-1, 0) ∧
    safe_mul_int64 (-1) INT64_MIN = some (-1, 0) ∧
    safe_mul_int64 3037000499 3037000499 = some (0, 9223372030926249001) ∧
    safe_mul_int64 3037000500 3037000500 = some (-1, 0) ∧
    safe_mul_int64 4294967296 (-2147483648) = some (0, INT64_MIN) ∧
    safe_mul_int64 (-4294967296) (-2147483648) = some (-1, 0) ∧
    safe_mul_int64 (-INT64_MAX) (-1) = some (0, INT64_MAX) := by
  decide

/-! ### Addition -/

/-- Closed form of `safe_add_int` for `int` operands: both subtractions of the
check are defined, and the status and the result only depend on whether the
mathematical sum fits. -/
theorem safe_add_int_eq (a b : Int) (ha : INT_MIN ≤ a ∧ a ≤ INT_MAX)
    (hb : INT_MIN ≤ b ∧ b ≤ INT_MAX) :
    safe_add_int a b =
      if INT_MIN ≤ a + b ∧ a + b ≤ INT_MAX then some (0, a + b) else some (-1, 0) := by
  unfold safe_add_int cand cor ssub sadd signed
  unfold INT_MIN INT_MAX at *
  by_cases hfit : -2147483648 ≤ a + b ∧ a + b ≤ 2147483647
  · by_cases hp : b > 0
    · have h1 : -2147483648 ≤ 2147483647 - b ∧ 2147483647 - b ≤ 2147483647 := by omega
      have h2 : ¬ a > 2147483647 - b := by omega
      have h3 : ¬ b < 0 := by omega
      simp [hp, h1, h2, h3, hfit]
    · by_cases hn : b < 0
      · have h1 : -2147483648 ≤ -2147483648 - b ∧ -2147483648 - b ≤ 2147483647 := by omega
        have h2 : ¬ a < -2147483648 - b := by omega
        simp [hp, hn, h1, h2, hfit]
      · simp [hp, hn, hfit]
  · by_cases hp : b > 0
    · have h1 : -2147483648 ≤ 2147483647 - b ∧ 2147483647 - b ≤ 2147483647 := by omega
      have h2 : a > 2147483647 - b := by omega
      simp [hp, h1, h2, hfit]
    · by_cases hn : b < 0
      · have h1 : -2147483648 ≤ -2147483648 - b ∧ -2147483648 - b ≤ 2147483647 := by omega
        have h2 : a < -2147483648 - b := by omega
        simp [hp, hn, h1, h2, hfit]
      · omega

/-- Closed form of `safe_add_size_t` for a `size_t` operand `b`: the status and
the result only depend on whether the mathematical sum fits. -/
theorem safe_add_size_t_eq (w a b : Nat) (hb : b ≤ SIZE_MAX w) :
    safe_add_size_t w a b = if a + b ≤ SIZE_MAX w then (0, a + b) else (-1, 0) := by
  have hpos : 0 < 2 ^ w := Nat.two_pow_pos w
  unfold safe_add_size_t
  unfold SIZE_MAX at *
  have hsub : usub w (2 ^ w - 1) b = 2 ^ w - 1 - b := by
    unfold usub
    have : 2 ^ w - 1 + 2 ^ w - b = (2 ^ w - 1 - b) + 2 ^ w := by omega
    rw [this, Nat.add_mod_right, Nat.mod_eq_of_lt (by omega)]
  rw [hsub]
  by_cases hfit : a + b ≤ 2 ^ w - 1
  · rw [if_pos hfit, if_neg (by omega)]
    simp [uadd, Nat.mod_eq_of_lt (show a + b < 2 ^ w by omega)]
  · rw [if_neg hfit, if_pos (by omega)]

/-- C4: for signed 32-bit operands `a`, `b`, `safe_add_int` returns status `0`
with the exact sum `a + b` if and only if `INT_MIN ≤ a + b ≤ INT_MAX`, and
otherwise returns status `-1` with result `0`. -/
theorem safe_add_int_spec (a b : Int) (ha : INT_MIN ≤ a ∧ a ≤ INT_MAX)
    (hb : INT_MIN ≤ b ∧ b ≤ INT_MAX) :
    (safe_add_int a b = some (0, a + b) ↔ INT_MIN ≤ a + b ∧ a + b ≤ INT_MAX) ∧
    (¬ (INT_MIN ≤ a + b ∧ a + b ≤ INT_MAX) → safe_add_int a b = some (-1, 0)) := by
  rw [safe_add_int_eq a b ha hb]
  by_cases h : INT_MIN ≤ a + b ∧ a + b ≤ INT_MAX
  · simp [h]
  · simp [h]

/-- Witness for C4: `INT_MAX + 1` exceeds `INT_MAX`, so `safe_add_int` fails. -/
theorem safe_add_int_spec_witness :
    (safe_add_int INT_MAX 1 = some (0, INT_MAX + 1) ↔
      INT_MIN ≤ INT_MAX + 1 ∧ INT_MAX + 1 ≤ INT_MAX) ∧
    (¬ (INT_MIN ≤ INT_MAX + 1 ∧ INT_MAX + 1 ≤ INT_MAX) →
      safe_add_int INT_MAX 1 = some (-1, 0)) :=
  safe_add_int_spec INT_MAX 1 (by decide) (by decide)

/-- Evaluations of `safe_add_int` at the edges of the `int` range. -/
theorem safe_add_int_tests :
    safe_add_int 100 200 = some (0, 300) ∧
    safe_add_int INT_MAX 0 = some (0, INT_MAX) ∧
    safe_add_int INT_MAX 1 = some (-1, 0) ∧
    safe_add_int INT_MIN (-1) = some (-1, 0) ∧
    safe_add_int INT_MIN INT_MAX = some (0, -1) ∧
    safe_add_int INT_MAX INT_MIN = some (0, -1) ∧
    safe_add_int INT_MIN INT_MIN = some (-1, 0) ∧
    safe_add_int INT_MAX INT_MAX = some (-1, 0) := by
  decide

/-- C5: for `size_t` operands `a`, `b` of a `w`-bit `size_t`, `safe_add_size_t`
returns status `0` with the exact sum `a + b` if and only if `a + b ≤ SIZE_MAX`,
and otherwise returns status `-1` with result `0`; `SIZE_MAX - 10 + 10` succeeds
with `SIZE_MAX` and `SIZE_MAX - 10 + 20` fails. -/
theorem safe_add_size_t_spec (w a b : Nat) (hb : b ≤ SIZE_MAX w) :
    (safe_add_size_t w a b = (0, a + b) ↔ a + b ≤ SIZE_MAX w) ∧
    (¬ a + b ≤ SIZE_MAX w → safe_add_size_t w a b = (-1, 0)) ∧
    (20 ≤ SIZE_MAX w →
      safe_add_size_t w (SIZE_MAX w - 10) 10 = (0, SIZE_MAX w) ∧
      safe_add_size_t w (SIZE_MAX w - 10) 20 = (-1, 0)) := by
  refine ⟨?_, ?_, ?_⟩
  · rw [safe_add_size_t_eq w a b hb]
    by_cases h : a + b ≤ SIZE_MAX w
    · simp [h]
    · simp [h]
  · intro h
    rw [safe_add_size_t_eq w a b hb, if_neg h]
  · intro h20
    rw [safe_add_size_t_eq w _ 10 (by omega), safe_add_size_t_eq w _ 20 (by omega),
      if_pos (by omega), if_neg (by omega)]
    exact ⟨by congr 1; omega, rfl⟩

/-- Witness for C5 on a 64-bit `size_t`: `SIZE_MAX + 1` does not fit. -/
theorem safe_add_size_t_spec_witness :
    (safe_add_size_t 64 (SIZE_MAX 64) 1 = (0, SIZE_MAX 64 + 1) ↔
      SIZE_MAX 64 + 1 ≤ SIZE_MAX 64) ∧
    (¬ SIZE_MAX 64 + 1 ≤ SIZE_MAX 64 → safe_add_size_t 64 (SIZE_MAX 64) 1 = (-1, 0)) ∧
    (20 ≤ SIZE_MAX 64 →
      safe_add_size_t 64 (SIZE_MAX 64 - 10) 10 = (0, SIZE_MAX 64) ∧
      safe_add_size_t 64 (SIZE_MAX 64 - 10) 20 = (-1, 0)) :=
  safe_add_size_t_spec 64 (SIZE_MAX 64) 1 (by decide)

/-- The assertions of `test_safe_add_size_t`, on a 64-bit `size_t`. -/
theorem safe_add_size_t_tests :
    safe_add_size_t 64 100 200 = (0, 300) ∧
    safe_add_size_t 64 0 1000 = (0, 1000) ∧
    safe_add_size_t 64 (SIZE_MAX 64) 1 = (-1, 0) ∧
    safe_add_size_t 64 (SIZE_MAX 64 - 10) 20 = (-1, 0) ∧
    safe_add_size_t 64 (SIZE_MAX 64 - 10) 10 = (0, SIZE_MAX 64) := by
  decide

/-! ### Allocation sizes -/

/-- The two-stage checked chain `(a * b) * c`: the full product when it fits,
and `0` otherwise, whichever of the two multiplications overflows. -/
theorem mul_chain_eq (w a b c : Nat) :
    (do
      let (status, temp) ← safe_mul_size_t w a b
      if status ≠ 0 then
        some 0
      else do
        let (status, result) ← safe_mul_size_t w temp c
        if status ≠ 0 then some 0 else some result) =
    some (if a * b * c ≤ SIZE_MAX w then a * b * c else 0) := by
  rw [safe_mul_size_t_eq]
  by_cases h1 : a * b ≤ SIZE_MAX w
  · rw [if_pos h1]
    simp only [Option.bind_eq_bind, Option.some_bind, ne_eq, not_true_eq_false, if_false]
    rw [safe_mul_size_t_eq]
    by_cases h2 : a * b * c ≤ SIZE_MAX w
    · simp [h2]
    · simp [h2]
  · rw [if_neg h1]
    have h3 : a * b * c ≤ SIZE_MAX w → a * b * c = 0 := by
      intro h
      rcases Nat.eq_zero_or_pos c with hc | hc
      · simp [hc]
      · exact absurd (le_trans (Nat.le_mul_of_pos_right (a * b) hc) h) h1
    by_cases h2 : a * b * c ≤ SIZE_MAX w
    · simp [h2, h3 h2]
    · simp [h2]

/-- Closed form of `safe_alloc_size_2d`. -/
theorem safe_alloc_size_2d_eq (w dim_w dim_h element_size : Nat) :
    safe_alloc_size_2d w dim_w dim_h element_size =
      some (if dim_w * dim_h * element_size ≤ SIZE_MAX w
        then dim_w * dim_h * element_size else 0) :=
  mul_chain_eq w dim_w dim_h element_size

/-- Closed form of `safe_alloc_size_3`. -/
theorem safe_alloc_size_3_eq (w a b c : Nat) :
    safe_alloc_size_3 w a b c = some (if a * b * c ≤ SIZE_MAX w then a * b * c else 0) :=
  mul_chain_eq w a b c

/-- A nonzero product exceeding `SIZE_MAX` at the first stage exceeds it at the
second stage too, unless the last factor is zero. -/
theorem chain_zero_of_overflow (w a b c : Nat)
    (h : SIZE_MAX w < a * b ∨ SIZE_MAX w < a * b * c) :
    (if a * b * c ≤ SIZE_MAX w then a * b * c else 0) = 0 := by
  by_cases h2 : a * b * c ≤ SIZE_MAX w
  · rw [if_pos h2]
    rcases h with h | h
    · rcases Nat.eq_zero_or_pos c with hc | hc
      · simp [hc]
      · have := Nat.le_mul_of_pos_right (a * b) hc
        omega
    · omega
  · rw [if_neg h2]

/-- C6: `safe_alloc_size_2d` returns the exact product
`dim_w * dim_h * element_size` (a positive value) when the three factors are
nonzero and the product is at most `SIZE_MAX`; it returns `0` when a factor is
`0`, and when `dim_w * dim_h` or the full product exceeds `SIZE_MAX`; in all
cases the result is the full product when that fits and `0` otherwise. -/
theorem safe_alloc_size_2d_spec (w dim_w dim_h element_size : Nat) :
    (dim_w ≠ 0 → dim_h ≠ 0 → element_size ≠ 0 →
      dim_w * dim_h * element_size ≤ SIZE_MAX w →
      safe_alloc_size_2d w dim_w dim_h element_size = some (dim_w * dim_h * element_size) ∧
      0 < dim_w * dim_h * element_size) ∧
    (dim_w = 0 ∨ dim_h = 0 ∨ element_size = 0 →
      safe_alloc_size_2d w dim_w dim_h element_size = some 0) ∧
    (SIZE_MAX w < dim_w * dim_h ∨ SIZE_MAX w < dim_w * dim_h * element_size →
      safe_alloc_size_2d w dim_w dim_h element_size = some 0) ∧
    safe_alloc_size_2d w dim_w dim_h element_size =
      some (if dim_w * dim_h * element_size ≤ SIZE_MAX w
        then dim_w * dim_h * element_size else 0) := by
  rw [safe_alloc_size_2d_eq]
  refine ⟨?_, ?_, ?_, rfl⟩
  · intro hw hh he hfit
    rw [if_pos hfit]
    exact ⟨rfl, Nat.mul_pos (Nat.mul_pos (Nat.pos_of_ne_zero hw) (Nat.pos_of_ne_zero hh))
      (Nat.pos_of_ne_zero he)⟩
  · intro h0
    have : dim_w * dim_h * element_size = 0 := by
      rcases h0 with h | h | h <;> simp [h]
    simp [this]
  · intro hov
    rw [chain_zero_of_overflow w _ _ _ hov]

/-- The assertions of `test_safe_alloc_size_2d`, `test_image_size_boundaries` and
`test_kodak_thumbnail_cases` on `safe_alloc_size_2d`, on a 64-bit and on a
32-bit `size_t`. -/
theorem safe_alloc_size_2d_tests :
    safe_alloc_size_2d 64 1920 1080 4 = some (1920 * 1080 * 4) ∧
    safe_alloc_size_2d 64 0 1080 4 = some 0 ∧
    safe_alloc_size_2d 64 1920 0 4 = some 0 ∧
    safe_alloc_size_2d 64 (SIZE_MAX 64) 2 1 = some 0 ∧
    safe_alloc_size_2d 64 (SIZE_MAX 64 / 2) 4 1 = some 0 ∧
    safe_alloc_size_2d 64 8192 8192 8 = some 536870912 ∧
    safe_alloc_size_2d 64 16384 16384 8 = some 2147483648 ∧
    safe_alloc_size_2d 64 (SIZE_MAX 64 / 4) 8 1 = some 0 ∧
    safe_alloc_size_2d 64 640 480 8 = some 2457600 ∧
    safe_alloc_size_2d 64 16 16 8 = some 2048 ∧
    safe_alloc_size_2d 32 1920 1080 4 = some (1920 * 1080 * 4) ∧
    safe_alloc_size_2d 32 (SIZE_MAX 32 / 2) 4 1 = some 0 ∧
    safe_alloc_size_2d 32 16384 16384 8 = some 2147483648 := by
  decide

/-- C7: `safe_alloc_size_3` returns the exact product `a * b * c` when the three
factors are nonzero and the product is at most `SIZE_MAX` (`100 * 200 * 4` is
`80000`), and returns `0` when a factor is `0` and when `a * b` or `(a * b) * c`
exceeds `SIZE_MAX` (as for `(SIZE_MAX / 2, 4, 2)`). -/
theorem safe_alloc_size_3_spec (w a b c : Nat) :
    (a ≠ 0 → b ≠ 0 → c ≠ 0 → a * b * c ≤ SIZE_MAX w →
      safe_alloc_size_3 w a b c = some (a * b * c)) ∧
    (a = 0 ∨ b = 0 ∨ c = 0 → safe_alloc_size_3 w a b c = some 0) ∧
    (SIZE_MAX w < a * b ∨ SIZE_MAX w < a * b * c → safe_alloc_size_3 w a b c = some 0) ∧
    (80000 ≤ SIZE_MAX w → safe_alloc_size_3 w 100 200 4 = some 80000) ∧
    safe_alloc_size_3 w (SIZE_MAX w / 2) 4 2 = some 0 := by
  refine ⟨?_, ?_, ?_, ?_, ?_⟩
  · intro _ _ _ hfit
    rw [safe_alloc_size_3_eq, if_pos hfit]
  · intro h0
    have : a * b * c = 0 := by
      rcases h0 with h | h | h <;> simp [h]
    rw [safe_alloc_size_3_eq]
    simp [this]
  · intro hov
    rw [safe_alloc_size_3_eq, chain_zero_of_overflow w _ _ _ hov]
  · intro h
    rw [safe_alloc_size_3_eq, if_pos (by omega)]
  · rw [safe_alloc_size_3_eq]
    by_cases h : SIZE_MAX w / 2 * 4 * 2 ≤ SIZE_MAX w
    · rw [if_pos h]
      congr 1
      omega
    · rw [if_neg h]

/-- The assertions of `test_safe_alloc_size_3`, `test_image_size_boundaries` and
`test_crx_allocation_cases` on `safe_alloc_size_3`, on a 64-bit `size_t`. -/
theorem safe_alloc_size_3_tests :
    safe_alloc_size_3 64 100 200 4 = some 80000 ∧
    safe_alloc_size_3 64 0 200 4 = some 0 ∧
    safe_alloc_size_3 64 100 0 4 = some 0 ∧
    safe_alloc_size_3 64 100 200 0 = some 0 ∧
    safe_alloc_size_3 64 (SIZE_MAX 64 / 2) 4 2 = some 0 ∧
    safe_alloc_size_3 64 8192 8192 3 = some (8192 * 8192 * 3) ∧
    safe_alloc_size_3 64 8192 8192 4 = some 268435456 ∧
    safe_alloc_size_3 64 (SIZE_MAX 64 / 4) 8 1 = some 0 := by
  decide

/-! ### File offsets -/

/-- Closed form of `safe_file_offset` for `int64_t` operands: every operation is
defined, and the result is the sum when it lies in `[0, INT64_MAX]` and the
sentinel `-1` otherwise. -/
theorem safe_file_offset_eq (base offset : Int)
    (hb : INT64_MIN ≤ base ∧ base ≤ INT64_MAX)
    (ho : INT64_MIN ≤ offset ∧ offset ≤ INT64_MAX) :
    safe_file_offset base offset =
      some (if 0 ≤ base + offset ∧ base + offset ≤ INT64_MAX then base + offset else -1) := by
  unfold safe_file_offset cand ssub sadd signed
  unfold INT64_MIN INT64_MAX at *
  by_cases hp : offset > 0
  · have h1 : -9223372036854775808 ≤ 9223372036854775807 - offset ∧
        9223372036854775807 - offset ≤ 9223372036854775807 := by omega
    have h3 : ¬ offset < 0 := by omega
    by_cases h2 : base > 9223372036854775807 - offset
    · have h4 : ¬ (0 ≤ base + offset ∧ base + offset ≤ 9223372036854775807) := by omega
      simp [hp, h1, h2, h4]
    · have h5 : -9223372036854775808 ≤ base + offset ∧
          base + offset ≤ 9223372036854775807 := by omega
      by_cases h6 : base + offset < 0
      · have h7 : ¬ 0 ≤ base + offset := by omega
        simp [hp, h1, h2, h3, h5, h6, h7]
      · have h4 : 0 ≤ base + offset ∧ base + offset ≤ 9223372036854775807 := by omega
        simp [hp, h1, h2, h3, h4, h5, h6]
  · by_cases hn : offset < 0
    · have h1 : -9223372036854775808 ≤ -9223372036854775808 - offset ∧
          -9223372036854775808 - offset ≤ 9223372036854775807 := by omega
      by_cases h2 : base < -9223372036854775808 - offset
      · have h4 : ¬ (0 ≤ base + offset ∧ base + offset ≤ 9223372036854775807) := by omega
        simp [hp, hn, h1, h2, h4]
      · have h5 : -9223372036854775808 ≤ base + offset ∧
            base + offset ≤ 9223372036854775807 := by omega
        by_cases h6 : base + offset < 0
        · have h7 : ¬ 0 ≤ base + offset := by omega
          simp [hp, hn, h1, h2, h5, h6, h7]
        · have h4 : 0 ≤ base + offset ∧ base + offset ≤ 9223372036854775807 := by omega
          simp [hp, hn, h1, h2, h4, h5, h6]
    · have h0 : offset = 0 := by omega
      subst h0
      by_cases h6 : base < 0
      · have h7 : ¬ 0 ≤ base := by omega
        simp [hb, h6, h7]
      · have h4 : 0 ≤ base ∧ base ≤ 9223372036854775807 := by omega
        simp [hb, h4, h6]

/-- C8: for `int64_t` values `base`, `offset`, `safe_file_offset` returns the
exact sum when `0 ≤ base + offset ≤ INT64_MAX`, and in every other case (the sum
exceeds `INT64_MAX`, falls below `INT64_MIN`, or is representable but negative)
it returns the sentinel `-1`; it returns the exact sum as a value other than
the sentinel if and only if `0 ≤ base + offset ≤ INT64_MAX`; the result is
always `-1` or non-negative. -/
theorem safe_file_offset_spec (base offset : Int)
    (hb : INT64_MIN ≤ base ∧ base ≤ INT64_MAX)
    (ho : INT64_MIN ≤ offset ∧ offset ≤ INT64_MAX) :
    (0 ≤ base + offset ∧ base + offset ≤ INT64_MAX →
      safe_file_offset base offset = some (base + offset)) ∧
    (¬ (0 ≤ base + offset ∧ base + offset ≤ INT64_MAX) →
      safe_file_offset base offset = some (-1)) ∧
    ((safe_file_offset base offset = some (base + offset) ∧
        safe_file_offset base offset ≠ some (-1)) ↔
      (0 ≤ base + offset ∧ base + offset ≤ INT64_MAX)) ∧
    (safe_file_offset base offset = some (-1) ∨
      ∃ r : Int, 0 ≤ r ∧ safe_file_offset base offset = some r) := by
  rw [safe_file_offset_eq base offset hb ho]
  by_cases h : 0 ≤ base + offset ∧ base + offset ≤ INT64_MAX
  · rw [if_pos h]
    refine ⟨fun _ => rfl, fun hn => absurd h hn, ?_, Or.inr ⟨_, h.1, rfl⟩⟩
    refine ⟨fun _ => h, fun _ => ⟨rfl, ?_⟩⟩
    intro heq
    have h1 : base + offset = -1 := Option.some.inj heq
    omega
  · rw [if_neg h]
    refine ⟨fun hp => absurd hp h, fun _ => rfl, ?_, Or.inl rfl⟩
    exact ⟨fun hc => absurd rfl hc.2, fun hp => absurd hp h⟩

/-- Witness for C8: `safe_file_offset(INT64_MAX, 1)`, whose sum exceeds
`INT64_MAX`, and `safe_file_offset(10, 20)`. -/
theorem safe_file_offset_spec_witness :
    safe_file_offset INT64_MAX 1 = some (-1) ∧ safe_file_offset 10 20 = some (10 + 20) :=
  ⟨(safe_file_offset_spec INT64_MAX 1 (by decide) (by decide)).2.1 (by decide),
    (safe_file_offset_spec 10 20 (by decide) (by decide)).1 (by decide)⟩

/-- Evaluations of `safe_file_offset` at the edges of the `int64_t` range. -/
theorem safe_file_offset_tests :
    safe_file_offset 10 20 = some 30 ∧
    safe_file_offset 0 0 = some 0 ∧
    safe_file_offset 0 (-1) = some (-1) ∧
    safe_file_offset 5 (-7) = some (-1) ∧
    safe_file_offset INT64_MAX 0 = some INT64_MAX ∧
    safe_file_offset INT64_MAX 1 = some (-1) ∧
    safe_file_offset 1 INT64_MAX = some (-1) ∧
    safe_file_offset INT64_MIN (-1) = some (-1) ∧
    safe_file_offset (-1) INT64_MIN = some (-1) ∧
    safe_file_offset INT64_MIN INT64_MAX = some (-1) ∧
    safe_file_offset INT64_MAX INT64_MIN = some (-1) ∧
    safe_file_offset INT64_MAX (-1) = some (INT64_MAX - 1) := by
  decide

/-! ### Array indices -/

/-- C9: for a `size_t` index `i` and array size `n`, `safe_array_index` returns
`0` when `n = 0`, `i` when `i < n`, and `n - 1` when `i ≥ n` and `n > 0`. -/
theorem safe_array_index_spec (w i n : Nat) (hn : n ≤ SIZE_MAX w) :
    (n = 0 → safe_array_index w i n = 0) ∧
    (i < n → safe_array_index w i n = i) ∧
    (i ≥ n → n > 0 → safe_array_index w i n = n - 1) := by
  unfold safe_array_index
  refine ⟨?_, ?_, ?_⟩
  · intro h
    rw [if_pos h]
  · intro h
    rw [if_neg (by omega), if_neg (by omega)]
  · intro h hpos
    rw [if_neg (by omega), if_pos h]
    unfold usub
    unfold SIZE_MAX at hn
    have h2 : 0 < 2 ^ w := Nat.two_pow_pos w
    have : n + 2 ^ w - 1 = (n - 1) + 2 ^ w := by omega
    rw [this, Nat.add_mod_right, Nat.mod_eq_of_lt (by omega)]

/-- Witness for C9 on a 64-bit `size_t`: index `300` in an array of `256`. -/
theorem safe_array_index_spec_witness :
    (256 = 0 → safe_array_index 64 300 256 = 0) ∧
    (300 < 256 → safe_array_index 64 300 256 = 300) ∧
    (300 ≥ 256 → 256 > 0 → safe_array_index 64 300 256 = 256 - 1) :=
  safe_array_index_spec 64 300 256 (by decide)

/-- Evaluations of `safe_array_index` on a 64-bit `size_t`. -/
theorem safe_array_index_tests :
    safe_array_index 64 0 0 = 0 ∧
    safe_array_index 64 7 0 = 0 ∧
    safe_array_index 64 3 5 = 3 ∧
    safe_array_index 64 4 5 = 4 ∧
    safe_array_index 64 5 5 = 4 ∧
    safe_array_index 64 300 256 = 255 ∧
    safe_array_index 64 (SIZE_MAX 64) (SIZE_MAX 64) = SIZE_MAX 64 - 1 := by
  decide

/-- C10, as stated, fails at `index = -1`, `array_size = 5`: the array size is
positive and the index lies outside `[0, 4]`, yet the function returns `0`, not
the last valid index `4`. -/
theorem safe_array_index_int_counterexample :
    (0 : Int) < 5 ∧ ¬ ((0 : Int) ≤ -1 ∧ (-1 : Int) ≤ 5 - 1) ∧
    safe_array_index_int (-1) 5 = some 0 ∧
    safe_array_index_int (-1) 5 ≠ some (5 - 1) := by
  decide

/-- C10, amended: for `int` values, `safe_array_index_int` returns `0` if
`array_size` is zero or negative or if `index` is negative, `index` unchanged if
it lies within `[0, array_size - 1]`, and the last valid index `array_size - 1`
if `index ≥ array_size > 0`. -/
theorem safe_array_index_int_spec (index array_size : Int)
    (hs : INT_MIN ≤ array_size ∧ array_size ≤ INT_MAX) :
    (array_size ≤ 0 ∨ index < 0 → safe_array_index_int index array_size = some 0) ∧
    (0 ≤ index ∧ index ≤ array_size - 1 →
      safe_array_index_int index array_size = some index) ∧
    (0 < array_size → array_size ≤ index →
      safe_array_index_int index array_size = some (array_size - 1)) := by
  unfold safe_array_index_int ssub signed
  unfold INT_MIN INT_MAX at *
  refine ⟨?_, ?_, ?_⟩
  · intro h
    rw [if_pos h]
  · intro h
    rw [if_neg (by omega), if_neg (by omega)]
  · intro h1 h2
    rw [if_neg (by omega), if_pos (by omega), if_pos (by omega)]

/-- Witness for C10 (amended): index `300` in an array of `256`. -/
theorem safe_array_index_int_spec_witness :
    ((256 : Int) ≤ 0 ∨ (300 : Int) < 0 → safe_array_index_int 300 256 = some 0) ∧
    ((0 : Int) ≤ 300 ∧ (300 : Int) ≤ 256 - 1 → safe_array_index_int 300 256 = some 300) ∧
    ((0 : Int) < 256 → (256 : Int) ≤ 300 → safe_array_index_int 300 256 = some (256 - 1)) :=
  safe_array_index_int_spec 300 256 (by decide)

/-- Evaluations of `safe_array_index_int`. -/
theorem safe_array_index_int_tests :
    safe_array_index_int 300 256 = some 255 ∧
    safe_array_index_int 255 256 = some 255 ∧
    safe_array_index_int 0 256 = some 0 ∧
    safe_array_index_int (-1) 256 = some 0 ∧
    safe_array_index_int INT_MIN INT_MAX = some 0 ∧
    safe_array_index_int 3 0 = some 0 ∧
    safe_array_index_int 3 (-4) = some 0 ∧
    safe_array_index_int 3 INT_MIN = some 0 ∧
    safe_array_index_int INT_MAX INT_MAX = some (INT_MAX - 1) := by
  decide

/-! ### Clamped indices -/

/-- Closed form of `safe_array_index` for an array size that is a `size_t`
value: the subtraction `array_size - 1` does not wrap. -/
theorem safe_array_index_eq (w i n : Nat) (hn : n ≤ SIZE_MAX w) :
    safe_array_index w i n = if n = 0 then 0 else if n ≤ i then n - 1 else i := by
  unfold safe_array_index
  by_cases h0 : n = 0
  · rw [if_pos h0, if_pos h0]
  · rw [if_neg h0, if_neg h0]
    by_cases h1 : n ≤ i
    · rw [if_pos h1, if_pos h1]
      unfold usub
      unfold SIZE_MAX at hn
      have h2 : 0 < 2 ^ w := Nat.two_pow_pos w
      have h3 : n + 2 ^ w - 1 = (n - 1) + 2 ^ w := by omega
      rw [h3, Nat.add_mod_right, Nat.mod_eq_of_lt (by omega)]
    · rw [if_neg h1, if_neg h1]

/-- Closed form of `safe_array_index_int` for an array size that is an `int`
value: the subtraction `array_size - 1` does not overflow. -/
theorem safe_array_index_int_eq (index array_size : Int)
    (hs : INT_MIN ≤ array_size ∧ array_size ≤ INT_MAX) :
    safe_array_index_int index array_size =
      some (if array_size ≤ 0 ∨ index < 0 then 0
        else if array_size ≤ index then array_size - 1 else index) := by
  unfold safe_array_index_int ssub signed
  unfold INT_MIN INT_MAX at *
  by_cases h0 : array_size ≤ 0 ∨ index < 0
  · rw [if_pos h0, if_pos h0]
  · rw [if_neg h0, if_neg h0]
    by_cases h1 : array_size ≤ index
    · rw [if_pos h1, if_pos h1, if_pos (by omega)]
    · rw [if_neg h1, if_neg h1]

/-- C11: for both clamp functions, when the bound is positive the result lies in
`[0, bound - 1]` and is the value of that range nearest to the index (the index
itself when in range, `0` for an index below the range, `bound - 1` for an index
above it); when the bound is zero (or negative, for the `int` variant) the
result is `0`. -/
theorem clamp_index_spec (w i n : Nat) (index array_size : Int)
    (hn : n ≤ SIZE_MAX w) (hs : INT_MIN ≤ array_size ∧ array_size ≤ INT_MAX) :
    (0 < n →
      safe_array_index w i n ≤ n - 1 ∧
      (i < n → safe_array_index w i n = i) ∧
      (n ≤ i → safe_array_index w i n = n - 1) ∧
      ∀ j : Nat, j ≤ n - 1 →
        (((safe_array_index w i n : Nat) : Int) - i).natAbs ≤ ((j : Int) - i).natAbs) ∧
    (n = 0 → safe_array_index w i n = 0) ∧
    (0 < array_size →
      ∃ r : Int, safe_array_index_int index array_size = some r ∧
        0 ≤ r ∧ r ≤ array_size - 1 ∧
        (0 ≤ index ∧ index ≤ array_size - 1 → r = index) ∧
        (index < 0 → r = 0) ∧
        (array_size - 1 < index → r = array_size - 1) ∧
        ∀ j : Int, 0 ≤ j → j ≤ array_size - 1 → |r - index| ≤ |j - index|) ∧
    (array_size ≤ 0 → safe_array_index_int index array_size = some 0) := by
  rw [safe_array_index_eq w i n hn, safe_array_index_int_eq index array_size hs]
  refine ⟨?_, ?_, ?_, ?_⟩
  · intro hpos
    rw [if_neg (by omega)]
    by_cases h1 : n ≤ i
    · rw [if_pos h1]
      exact ⟨le_refl _, fun h => by omega, fun _ => rfl, fun j hj => by omega⟩
    · rw [if_neg h1]
      exact ⟨by omega, fun _ => rfl, fun h => absurd h h1, fun j _ => by omega⟩
  · intro h0
    rw [if_pos h0]
  · intro hpos
    refine ⟨_, rfl, ?_⟩
    by_cases hneg : index < 0
    · rw [if_pos (Or.inr hneg)]
      refine ⟨le_refl _, by omega, fun h => by omega, fun _ => rfl, fun h => by omega, ?_⟩
      intro j hj0 _
      cases abs_cases (0 - index) <;> cases abs_cases (j - index) <;> omega
    · rw [if_neg (by omega)]
      by_cases h1 : array_size ≤ index
      · rw [if_pos h1]
        refine ⟨by omega, le_refl _, fun h => by omega, fun h => absurd h hneg,
          fun _ => rfl, ?_⟩
        intro j _ hj
        cases abs_cases (array_size - 1 - index) <;> cases abs_cases (j - index) <;> omega
      · rw [if_neg h1]
        refine ⟨by omega, by omega, fun _ => rfl, fun h => absurd h hneg,
          fun h => by omega, ?_⟩
        intro j _ _
        cases abs_cases (index - index) <;> cases abs_cases (j - index) <;> omega
  · intro h0
    rw [if_pos (Or.inl h0)]

/-- Witness for C11: index `300` against a bound of `256`, for both functions. -/
theorem clamp_index_spec_witness :
    safe_array_index 64 300 256 = 256 - 1 ∧
    ∃ r : Int, safe_array_index_int 300 256 = some r ∧ 0 ≤ r ∧ r ≤ 256 - 1 :=
  have h := clamp_index_spec 64 300 256 300 256 (by decide) (by decide)
  ⟨(h.1 (by decide)).2.2.1 (by decide),
    match h.2.2.1 (by decide) with
    | ⟨r, hr, h0, h1, _⟩ => ⟨r, hr, h0, h1⟩⟩

/-! ### Allocation budget -/

/-- The megabyte constant `1024ULL * 1024ULL`, converted to a `size_t` wide
enough to hold it, is `1048576`. -/
theorem megabyte_const (w : Nat) (hw : 1048576 ≤ SIZE_MAX w) :
    umul 64 1024 1024 % 2 ^ w = 1048576 := by
  have h1 : umul 64 1024 1024 = 1048576 := by decide
  unfold SIZE_MAX at hw
  rw [h1, Nat.mod_eq_of_lt (by omega)]

/-- Closed form of `is_allocation_reasonable` on a `size_t` that holds
`1048576`. -/
theorem is_allocation_reasonable_eq (w size max_mb : Nat) (hw : 1048576 ≤ SIZE_MAX w) :
    is_allocation_reasonable w size max_mb =
      some (if max_mb * 1048576 ≤ SIZE_MAX w ∧ size ≤ max_mb * 1048576 then 1 else 0) := by
  unfold is_allocation_reasonable
  rw [megabyte_const w hw, safe_mul_size_t_eq]
  by_cases h1 : max_mb * 1048576 ≤ SIZE_MAX w
  · by_cases h2 : size ≤ max_mb * 1048576
    · simp [h1, h2]
    · simp [h1, h2]
  · simp [h1]

/-- C12: `is_allocation_reasonable(size, max_mb)` returns true (`1`) if and only
if `max_mb * 1048576 ≤ SIZE_MAX` and `size ≤ max_mb * 1048576`, and `0`
otherwise; whenever `max_mb * 1048576` exceeds `SIZE_MAX` it returns `0` for
every size. -/
theorem is_allocation_reasonable_spec (w size max_mb : Nat) (hw : 1048576 ≤ SIZE_MAX w) :
    (is_allocation_reasonable w size max_mb = some 1 ↔
      max_mb * 1048576 ≤ SIZE_MAX w ∧ size ≤ max_mb * 1048576) ∧
    (¬ (max_mb * 1048576 ≤ SIZE_MAX w ∧ size ≤ max_mb * 1048576) →
      is_allocation_reasonable w size max_mb = some 0) ∧
    (SIZE_MAX w < max_mb * 1048576 →
      ∀ size2 : Nat, is_allocation_reasonable w size2 max_mb = some 0) := by
  refine ⟨?_, ?_, ?_⟩
  · rw [is_allocation_reasonable_eq w size max_mb hw]
    by_cases h : max_mb * 1048576 ≤ SIZE_MAX w ∧ size ≤ max_mb * 1048576
    · simp [h]
    · simp [h]
  · intro h
    rw [is_allocation_reasonable_eq w size max_mb hw, if_neg h]
  · intro hov size2
    rw [is_allocation_reasonable_eq w size2 max_mb hw, if_neg (by omega)]

/-- Witness for C12 on a 64-bit `size_t`: a limit of `2 ^ 44` megabytes
overflows, so no size is reasonable. -/
theorem is_allocation_reasonable_spec_witness :
    is_allocation_reasonable 64 0 (2 ^ 44) = some 0 :=
  (is_allocation_reasonable_spec 64 0 (2 ^ 44) (by decide)).2.2 (by decide) 0

/-- Evaluations of `is_allocation_reasonable` on a 64-bit and a 32-bit `size_t`. -/
theorem is_allocation_reasonable_tests :
    is_allocation_reasonable 64 0 0 = some 1 ∧
    is_allocation_reasonable 64 1 0 = some 0 ∧
    is_allocation_reasonable 64 (5 * 1048576) 5 = some 1 ∧
    is_allocation_reasonable 64 (5 * 1048576 + 1) 5 = some 0 ∧
    is_allocation_reasonable 64 0 (2 ^ 44) = some 0 ∧
    is_allocation_reasonable 64 (SIZE_MAX 64) (2 ^ 44 - 1) = some 0 ∧
    is_allocation_reasonable 32 (SIZE_MAX 32) 4095 = some 0 ∧
    is_allocation_reasonable 32 (4095 * 1048576) 4095 = some 1 ∧
    is_allocation_reasonable 32 0 4096 = some 0 := by
  decide

/-! ### Division and modulo -/

/-- C13: with a zero divisor, `safe_div_int` and `safe_div_uint` return the
default value and `safe_mod_int` and `safe_mod_uint` return `0`, for every
numerator and every default. -/
theorem zero_divisor_spec (x d : Int) (ux ud : Nat) :
    safe_div_int x 0 d = some d ∧
    safe_div_uint ux 0 ud = some ud ∧
    safe_mod_int x 0 = some 0 ∧
    safe_mod_uint ux 0 = some 0 := by
  refine ⟨?_, ?_, ?_, ?_⟩
  · unfold safe_div_int
    rw [if_pos rfl]
  · unfold safe_div_uint
    rw [if_pos rfl]
  · unfold safe_mod_int
    rw [if_pos rfl]
  · unfold safe_mod_uint
    rw [if_pos rfl]

/-- For a nonzero divisor other than the pair `(INT_MIN, -1)`, `safe_div_int`
is the quotient truncated toward zero, whatever the default value. -/
theorem safe_div_int_eq (numerator divisor default_val : Int) (hd : divisor ≠ 0)
    (h : numerator ≠ INT_MIN ∨ divisor ≠ -1) :
    safe_div_int numerator divisor default_val = some (Int.tdiv numerator divisor) := by
  unfold safe_div_int
  rw [if_neg hd, sdiv_eq_some INT_MIN numerator divisor hd h]

/-- C14 fails at `numerator = INT_MIN`, `divisor = -1`: the divisor is nonzero,
the quotient truncated toward zero is `2147483648`, which exceeds `INT_MAX`, so
the division `numerator / divisor` that `safe_div_int` evaluates overflows and
is undefined, for every default value. -/
theorem safe_div_int_min_neg_one :
    (-1 : Int) ≠ 0 ∧
    Int.tdiv INT_MIN (-1) = 2147483648 ∧
    INT_MAX < Int.tdiv INT_MIN (-1) ∧
    (∀ default_val : Int, safe_div_int INT_MIN (-1) default_val = none) := by
  refine ⟨by decide, by decide, by decide, ?_⟩
  intro default_val
  unfold safe_div_int sdiv
  rw [if_neg (by decide), if_pos (Or.inr ⟨rfl, rfl⟩)]

/-- The assertions of `test_safe_div_int`, and divisions that truncate toward
zero. -/
theorem safe_div_int_tests :
    safe_div_int 100 4 0 = some 25 ∧
    safe_div_int 100 0 (-1) = some (-1) ∧
    safe_div_int (-100) 4 0 = some (-25) ∧
    safe_div_int 7 2 0 = some 3 ∧
    safe_div_int (-7) 2 0 = some (-3) ∧
    safe_div_int 7 (-2) 0 = some (-3) ∧
    safe_div_int (-7) (-2) 0 = some 3 ∧
    safe_div_int INT_MIN 1 0 = some INT_MIN ∧
    safe_div_int INT_MAX (-1) 0 = some (-INT_MAX) ∧
    safe_div_int INT_MIN (-1) 0 = none := by
  decide

/-! ### Left shift -/

/-- A defined left shift is the product by the power of two, reduced modulo
`2 ^ w`. -/
theorem ushl_eq (w v : Nat) (s : Int) (hs : 0 ≤ s ∧ s < w) :
    ushl w v s = some ((v * 2 ^ s.toNat) % 2 ^ w) := by
  unfold ushl
  rw [if_neg (by omega), Nat.shiftLeft_eq]

/-- C15: `safe_lshift_uint(v, s)` returns `0` if `s < 0` or `s ≥ 32` and
otherwise `(v * 2 ^ s) mod 2 ^ 32`; `safe_lshift_uint64(v, s)` returns `0` if
`s < 0` or `s ≥ 64` and otherwise `(v * 2 ^ s) mod 2 ^ 64`. -/
theorem safe_lshift_spec (v : Nat) (s : Int) :
    (s < 0 ∨ s ≥ 32 → safe_lshift_uint v s = some 0) ∧
    (0 ≤ s ∧ s < 32 → safe_lshift_uint v s = some ((v * 2 ^ s.toNat) % 2 ^ 32)) ∧
    (s < 0 ∨ s ≥ 64 → safe_lshift_uint64 v s = some 0) ∧
    (0 ≤ s ∧ s < 64 → safe_lshift_uint64 v s = some ((v * 2 ^ s.toNat) % 2 ^ 64)) := by
  refine ⟨?_, ?_, ?_, ?_⟩
  · intro h
    unfold safe_lshift_uint
    rw [if_pos h]
  · intro h
    unfold safe_lshift_uint
    rw [if_neg (by omega), ushl_eq 32 v s ⟨h.1, by exact_mod_cast h.2⟩]
  · intro h
    unfold safe_lshift_uint64
    rw [if_pos h]
  · intro h
    unfold safe_lshift_uint64
    rw [if_neg (by omega), ushl_eq 64 v s ⟨h.1, by exact_mod_cast h.2⟩]

/-- Evaluations of `safe_lshift_uint` and `safe_lshift_uint64` at the edges of
the shift range. -/
theorem safe_lshift_tests :
    safe_lshift_uint 1 0 = some 1 ∧
    safe_lshift_uint 1 31 = some 2147483648 ∧
    safe_lshift_uint 1 32 = some 0 ∧
    safe_lshift_uint 1 (-1) = some 0 ∧
    safe_lshift_uint 4294967295 1 = some 4294967294 ∧
    safe_lshift_uint 3 31 = some 2147483648 ∧
    safe_lshift_uint64 1 32 = some 4294967296 ∧
    safe_lshift_uint64 1 63 = some 9223372036854775808 ∧
    safe_lshift_uint64 3 63 = some 9223372036854775808 ∧
    safe_lshift_uint64 1 64 = some 0 ∧
    safe_lshift_uint64 1 (-1) = some 0 := by
  decide

/-! ### Unsigned 32-bit multiplication and the boundary of each multiplication -/

/-- The function `safe_mul_uint` is `safe_mul_size_t` on 32 bits. -/
theorem safe_mul_uint_eq_size_t (a b : Nat) : safe_mul_uint a b = safe_mul_size_t 32 a b :=
  rfl

/-- Closed form of `safe_mul_uint`. -/
theorem safe_mul_uint_eq (a b : Nat) :
    safe_mul_uint a b = if a * b ≤ UINT_MAX then some (0, a * b) else some (-1, 0) := by
  rw [safe_mul_uint_eq_size_t, safe_mul_size_t_eq]
  rfl

/-- The largest `size_t` value is zero or odd. -/
theorem SIZE_MAX_half (w : Nat) : SIZE_MAX w / 2 * 2 = SIZE_MAX w - 1 := by
  unfold SIZE_MAX
  cases w with
  | zero => rfl
  | succ k =>
    have h : 0 < 2 ^ k := Nat.two_pow_pos k
    rw [Nat.pow_succ]
    omega

/-- C16: for each of `safe_mul_size_t`, `safe_mul_uint`, `safe_mul_int` and
`safe_mul_int64`, with `MAX` the maximum of its type, `MAX / 2` times `2`
succeeds with `MAX - 1` and `MAX / 2 + 1` times `2` fails with result `0`. -/
theorem mul_boundary_spec (w : Nat) :
    safe_mul_size_t w (SIZE_MAX w / 2) 2 = some (0, SIZE_MAX w - 1) ∧
    safe_mul_size_t w (SIZE_MAX w / 2 + 1) 2 = some (-1, 0) ∧
    safe_mul_uint (UINT_MAX / 2) 2 = some (0, UINT_MAX - 1) ∧
    safe_mul_uint (UINT_MAX / 2 + 1) 2 = some (-1, 0) ∧
    safe_mul_int (Int.tdiv INT_MAX 2) 2 = some (0, INT_MAX - 1) ∧
    safe_mul_int (Int.tdiv INT_MAX 2 + 1) 2 = some (-1, 0) ∧
    safe_mul_int64 (Int.tdiv INT64_MAX 2) 2 = some (0, INT64_MAX - 1) ∧
    safe_mul_int64 (Int.tdiv INT64_MAX 2 + 1) 2 = some (-1, 0) := by
  refine ⟨?_, ?_, by decide, by decide, by decide, by decide, by decide, by decide⟩
  · have h := SIZE_MAX_half w
    rw [safe_mul_size_t_eq, if_pos (by omega), h]
  · have h := SIZE_MAX_half w
    rw [safe_mul_size_t_eq, if_neg (by omega)]

/-- C17: for 32-bit unsigned operands `a`, `b`, `safe_mul_uint` returns status
`0` with the exact product `a * b` if and only if `a * b ≤ UINT_MAX`, and
otherwise returns status `-1` with result `0`. -/
theorem safe_mul_uint_spec (a b : Nat) :
    (safe_mul_uint a b = some (0, a * b) ↔ a * b ≤ UINT_MAX) ∧
    (¬ a * b ≤ UINT_MAX → safe_mul_uint a b = some (-1, 0)) := by
  rw [safe_mul_uint_eq]
  by_cases h : a * b ≤ UINT_MAX
  · simp [h]
  · simp [h]

/-- Evaluations of `safe_mul_uint` around `UINT_MAX`. -/
theorem safe_mul_uint_tests :
    safe_mul_uint 0 UINT_MAX = some (0, 0) ∧
    safe_mul_uint UINT_MAX 1 = some (0, UINT_MAX) ∧
    safe_mul_uint 65535 65537 = some (0, UINT_MAX) ∧
    safe_mul_uint 65536 65536 = some (-1, 0) ∧
    safe_mul_uint UINT_MAX 2 = some (-1, 0) ∧
    safe_mul_uint UINT_MAX UINT_MAX = some (-1, 0) := by
  decide

/-! ### One-dimensional allocation size -/

/-- Closed form of `safe_alloc_size`. -/
theorem safe_alloc_size_eq (w count element_size : Nat) :
    safe_alloc_size w count element_size =
      some (if count * element_size ≤ SIZE_MAX w then count * element_size else 0) := by
  unfold safe_alloc_size
  rw [safe_mul_size_t_eq]
  by_cases h : count * element_size ≤ SIZE_MAX w
  · simp [h]
  · simp [h]

/-- C18: `safe_alloc_size(count, element_size)` returns the exact product when
it is at most `SIZE_MAX` and `0` when it exceeds `SIZE_MAX`; it returns `0`
exactly when a factor is `0` or the product overflows, and a nonzero result is
the true product. -/
theorem safe_alloc_size_spec (w count element_size : Nat) :
    (count * element_size ≤ SIZE_MAX w →
      safe_alloc_size w count element_size = some (count * element_size)) ∧
    (SIZE_MAX w < count * element_size → safe_alloc_size w count element_size = some 0) ∧
    (safe_alloc_size w count element_size = some 0 ↔
      count = 0 ∨ element_size = 0 ∨ SIZE_MAX w < count * element_size) ∧
    (∀ r : Nat, safe_alloc_size w count element_size = some r → r ≠ 0 →
      r = count * element_size) := by
  rw [safe_alloc_size_eq]
  by_cases h : count * element_size ≤ SIZE_MAX w
  · rw [if_pos h]
    refine ⟨fun _ => rfl, fun hov => by omega, ?_, ?_⟩
    · rw [Option.some.injEq, Nat.mul_eq_zero]
      constructor
      · rintro (h0 | h0)
        · exact Or.inl h0
        · exact Or.inr (Or.inl h0)
      · rintro (h0 | h0 | h0)
        · exact Or.inl h0
        · exact Or.inr h0
        · omega
    · intro r hr _
      exact (Option.some.inj hr).symm
  · rw [if_neg h]
    refine ⟨fun hfit => absurd hfit h, fun _ => rfl, ?_, ?_⟩
    · constructor
      · intro _
        exact Or.inr (Or.inr (by omega))
      · intro _
        rfl
    · intro r hr hne
      exact absurd (Option.some.inj hr).symm hne

/-- The assertion of `test_crx_allocation_cases` on `safe_alloc_size`, and
evaluations around `SIZE_MAX`, on a 64-bit `size_t`. -/
theorem safe_alloc_size_tests :
    safe_alloc_size 64 16 64 = some 1024 ∧
    safe_alloc_size 64 0 64 = some 0 ∧
    safe_alloc_size 64 16 0 = some 0 ∧
    safe_alloc_size 64 (SIZE_MAX 64) 1 = some (SIZE_MAX 64) ∧
    safe_alloc_size 64 (SIZE_MAX 64) 2 = some 0 ∧
    safe_alloc_size 64 (2 ^ 32) (2 ^ 32) = some 0 ∧
    safe_alloc_size 64 (2 ^ 32) (2 ^ 32 - 1) = some (2 ^ 64 - 2 ^ 32) := by
  decide

/-! ### No undefined operation in the signed multiplications -/

/-- A signed division is undefined exactly for a zero divisor and for the
minimum divided by `-1`. -/
theorem sdiv_eq_none_iff (lo a b : Int) :
    sdiv lo a b = none ↔ b = 0 ∨ (a = lo ∧ b = -1) := by
  unfold sdiv
  by_cases h : b = 0 ∨ (a = lo ∧ b = -1)
  · rw [if_pos h]
    exact ⟨fun _ => h, fun _ => rfl⟩
  · rw [if_neg h]
    exact ⟨fun h2 => absurd h2 (Option.some_ne_none _), fun h2 => absurd h2 h⟩

/-- A signed multiplication is undefined exactly when the mathematical product
is out of range. -/
theorem smul_eq_none_iff (lo hi a b : Int) :
    smul lo hi a b = none ↔ ¬ (lo ≤ a * b ∧ a * b ≤ hi) := by
  unfold smul signed
  by_cases h : lo ≤ a * b ∧ a * b ≤ hi
  · rw [if_pos h]
    exact ⟨fun h2 => absurd h2 (Option.some_ne_none _), fun h2 => absurd h h2⟩
  · rw [if_neg h]
    exact ⟨fun _ => h, fun _ => rfl⟩

/-- C20: for every pair of operands, `safe_mul_int` and `safe_mul_int64` return
a result: no division of the overflow check has a zero divisor or is
`MIN / -1`, and the multiplication `a * b` is evaluated only when the
mathematical product is in range, so that no guarded operation is undefined;
status `0` comes with the exact product, in range. -/
theorem safe_mul_signed_defined (a b : Int) :
    (safe_mul_int a b = some (-1, 0) ∨
      (safe_mul_int a b = some (0, a * b) ∧ INT_MIN ≤ a * b ∧ a * b ≤ INT_MAX)) ∧
    (safe_mul_int64 a b = some (-1, 0) ∨
      (safe_mul_int64 a b = some (0, a * b) ∧ INT64_MIN ≤ a * b ∧ a * b ≤ INT64_MAX)) ∧
    safe_mul_int a b ≠ none ∧ safe_mul_int64 a b ≠ none := by
  rw [safe_mul_int_eq_mulSigned, safe_mul_int64_eq_mulSigned,
    mulSigned_eq _ _ a b (by decide) (by decide),
    mulSigned_eq _ _ a b (by decide) (by decide)]
  refine ⟨?_, ?_, ?_, ?_⟩
  · by_cases h : INT_MIN ≤ a * b ∧ a * b ≤ INT_MAX
    · rw [if_pos h]
      exact Or.inr ⟨rfl, h⟩
    · rw [if_neg h]
      exact Or.inl rfl
  · by_cases h : INT64_MIN ≤ a * b ∧ a * b ≤ INT64_MAX
    · rw [if_pos h]
      exact Or.inr ⟨rfl, h⟩
    · rw [if_neg h]
      exact Or.inl rfl
  · by_cases h : INT_MIN ≤ a * b ∧ a * b ≤ INT_MAX
    · rw [if_pos h]
      exact Option.some_ne_none _
    · rw [if_neg h]
      exact Option.some_ne_none _
  · by_cases h : INT64_MIN ≤ a * b ∧ a * b ≤ INT64_MAX
    · rw [if_pos h]
      exact Option.some_ne_none _
    · rw [if_neg h]
      exact Option.some_ne_none _

/-! ### Order of the factors of an allocation size -/

/-- C21: the three-factor allocation size does not depend on the order of the
factors: `safe_alloc_size_3(a, b, c)` equals `safe_alloc_size_3` at every
permutation of `(a, b, c)`, and `safe_alloc_size_2d(a, b, c)` equals
`safe_alloc_size_3(a, b, c)`; which intermediate product overflows does depend
on the order, as for `(2 ^ 40, 2 ^ 40, 0)` and `(0, 2 ^ 40, 2 ^ 40)` on 64 bits. -/
theorem safe_alloc_size_3_perm (w a b c : Nat) :
    safe_alloc_size_3 w a b c = safe_alloc_size_3 w a c b ∧
    safe_alloc_size_3 w a b c = safe_alloc_size_3 w b a c ∧
    safe_alloc_size_3 w a b c = safe_alloc_size_3 w b c a ∧
    safe_alloc_size_3 w a b c = safe_alloc_size_3 w c a b ∧
    safe_alloc_size_3 w a b c = safe_alloc_size_3 w c b a ∧
    safe_alloc_size_2d w a b c = safe_alloc_size_3 w a b c ∧
    (safe_mul_size_t 64 (2 ^ 40) (2 ^ 40) = some (-1, 0) ∧
      safe_mul_size_t 64 0 (2 ^ 40) = some (0, 0) ∧
      safe_alloc_size_3 64 (2 ^ 40) (2 ^ 40) 0 = some 0 ∧
      safe_alloc_size_3 64 0 (2 ^ 40) (2 ^ 40) = some 0) := by
  have h1 : a * c * b = a * b * c := by ring
  have h2 : b * a * c = a * b * c := by ring
  have h3 : b * c * a = a * b * c := by ring
  have h4 : c * a * b = a * b * c := by ring
  have h5 : c * b * a = a * b * c := by ring
  refine ⟨?_, ?_, ?_, ?_, ?_, ?_, by decide⟩
  · rw [safe_alloc_size_3_eq, safe_alloc_size_3_eq, h1]
  · rw [safe_alloc_size_3_eq, safe_alloc_size_3_eq, h2]
  · rw [safe_alloc_size_3_eq, safe_alloc_size_3_eq, h3]
  · rw [safe_alloc_size_3_eq, safe_alloc_size_3_eq, h4]
  · rw [safe_alloc_size_3_eq, safe_alloc_size_3_eq, h5]
  · rw [safe_alloc_size_2d_eq, safe_alloc_size_3_eq]

/-- Evaluations of `safe_alloc_size_3` at the six orders of a triple whose
product of two factors overflows in some orders only, on a 64-bit `size_t`. -/
theorem safe_alloc_size_3_perm_tests :
    safe_alloc_size_3 64 (2 ^ 40) (2 ^ 40) 0 = some 0 ∧
    safe_alloc_size_3 64 (2 ^ 40) 0 (2 ^ 40) = some 0 ∧
    safe_alloc_size_3 64 0 (2 ^ 40) (2 ^ 40) = some 0 ∧
    safe_alloc_size_3 64 (2 ^ 40) (2 ^ 20) (2 ^ 3) = some (2 ^ 63) ∧
    safe_alloc_size_3 64 (2 ^ 3) (2 ^ 40) (2 ^ 20) = some (2 ^ 63) ∧
    safe_alloc_size_3 64 (2 ^ 20) (2 ^ 3) (2 ^ 40) = some (2 ^ 63) ∧
    safe_alloc_size_3 64 (2 ^ 40) (2 ^ 20) (2 ^ 4) = some 0 ∧
    safe_alloc_size_3 64 (2 ^ 4) (2 ^ 40) (2 ^ 20) = some 0 ∧
    safe_alloc_size_2d 64 (2 ^ 40) (2 ^ 20) (2 ^ 3) = some (2 ^ 63) := by
  decide

/-! ### Consistency of division and modulo -/

/-- The truncating remainder of an opposite is the opposite of the remainder. -/
theorem neg_tmod (a b : Int) : Int.tmod (-a) b = -(Int.tmod a b) := by
  rw [Int.tmod_def, Int.tmod_def, Int.neg_tdiv]
  ring

/-- The truncating remainder of a non-negative dividend by a nonzero divisor
lies in `[0, |b|)` and does not exceed the dividend. -/
theorem tmod_bounds_nonneg (a b : Int) (ha : 0 ≤ a) (hb : b ≠ 0) :
    0 ≤ Int.tmod a b ∧ Int.tmod a b < |b| ∧ Int.tmod a b ≤ a := by
  have h0 : 0 ≤ Int.tmod a b := Int.tmod_nonneg b ha
  have habs : Int.tmod a b = Int.tmod a |b| := by
    rcases lt_or_gt_of_ne hb with h | h
    · rw [abs_of_neg h, Int.tmod_neg]
    · rw [abs_of_pos h]
  have hpos : 0 < |b| := abs_pos.mpr hb
  have hlt : Int.tmod a b < |b| := by
    rw [habs]
    exact Int.tmod_lt_of_pos a hpos
  refine ⟨h0, hlt, ?_⟩
  by_cases hsmall : a < |b|
  · rw [habs, Int.tmod_eq_of_lt ha hsmall]
  · omega

/-- The truncating remainder of a non-positive dividend by a nonzero divisor
lies in `(-|b|, 0]` and is not below the dividend. -/
theorem tmod_bounds_nonpos (a b : Int) (ha : a ≤ 0) (hb : b ≠ 0) :
    Int.tmod a b ≤ 0 ∧ -|b| < Int.tmod a b ∧ a ≤ Int.tmod a b := by
  have h := tmod_bounds_nonneg (-a) b (by omega) hb
  rw [neg_tmod] at h
  omega

/-- A defined signed remainder is the truncating remainder. -/
theorem smod_eq_some (lo a b : Int) (hb : b ≠ 0) (h : a ≠ lo ∨ b ≠ -1) :
    smod lo a b = some (Int.tmod a b) := by
  unfold smod
  rw [if_neg]
  rintro (h0 | ⟨h1, h2⟩)
  · exact hb h0
  · rcases h with h | h
    · exact h h1
    · exact h h2

/-- For a nonzero divisor other than the pair `(INT_MIN, -1)`, `safe_mod_int`
is the remainder of the division truncated toward zero. -/
theorem safe_mod_int_eq (numerator divisor : Int) (hd : divisor ≠ 0)
    (h : numerator ≠ INT_MIN ∨ divisor ≠ -1) :
    safe_mod_int numerator divisor = some (Int.tmod numerator divisor) := by
  unfold safe_mod_int
  rw [if_neg hd, smod_eq_some INT_MIN numerator divisor hd h]

/-- For a nonzero divisor, `safe_div_uint` is the quotient, whatever the default
value, and `safe_mod_uint` the remainder. -/
theorem safe_div_mod_uint_eq (numerator divisor default_val : Nat) (hd : divisor ≠ 0) :
    safe_div_uint numerator divisor default_val = some (numerator / divisor) ∧
    safe_mod_uint numerator divisor = some (numerator % divisor) := by
  unfold safe_div_uint safe_mod_uint udiv umod
  rw [if_neg hd, if_neg hd, if_neg hd, if_neg hd]
  exact ⟨rfl, rfl⟩

/-- C22: division and modulo are consistent for nonzero divisors. For unsigned
`n` and `d ≠ 0` and any default, the quotient `q` of `safe_div_uint` and the
remainder `r` of `safe_mod_uint` satisfy `q * d + r = n` and `r < d` (also
in 32-bit arithmetic, for a 32-bit `n`). For signed `n` and `d ≠ 0` other than
`(INT_MIN, -1)`, the quotient `q` of `safe_div_int` and the remainder `r` of
`safe_mod_int` satisfy `q * d + r = n` (also in `int` arithmetic, for an `int`
value `n`), `|r| < |d|`, and `r` is zero or has the sign of `n`. -/
theorem div_mod_consistent (un ud udefault : Nat) (n d default_val : Int)
    (hud : ud ≠ 0) (hd : d ≠ 0) (hnd : ¬ (n = INT_MIN ∧ d = -1)) :
    (∃ q r : Nat, safe_div_uint un ud udefault = some q ∧ safe_mod_uint un ud = some r ∧
      q * ud + r = un ∧ r < ud ∧
      (un ≤ UINT_MAX → uadd 32 (umul 32 q ud) r = un)) ∧
    (∃ q r : Int, safe_div_int n d default_val = some q ∧ safe_mod_int n d = some r ∧
      q * d + r = n ∧ |r| < |d| ∧
      (r = 0 ∨ (0 < r ∧ 0 < n) ∨ (r < 0 ∧ n < 0)) ∧
      (INT_MIN ≤ n ∧ n ≤ INT_MAX →
        (smul INT_MIN INT_MAX q d).bind (fun p => sadd INT_MIN INT_MAX p r) = some n)) := by
  have hnd2 : n ≠ INT_MIN ∨ d ≠ -1 := by
    by_cases h : n = INT_MIN
    · exact Or.inr (fun h2 => hnd ⟨h, h2⟩)
    · exact Or.inl h
  constructor
  · refine ⟨un / ud, un % ud, (safe_div_mod_uint_eq un ud udefault hud).1,
      (safe_div_mod_uint_eq un ud udefault hud).2, Nat.div_add_mod' un ud,
      Nat.mod_lt un (Nat.pos_of_ne_zero hud), ?_⟩
    intro hn
    have hsum : un / ud * ud + un % ud = un := Nat.div_add_mod' un ud
    unfold UINT_MAX at hn
    have hmul : umul 32 (un / ud) ud = un / ud * ud := by
      unfold umul
      exact Nat.mod_eq_of_lt (by omega)
    rw [hmul]
    unfold uadd
    rw [hsum]
    exact Nat.mod_eq_of_lt (by omega)
  · have hsum : Int.tdiv n d * d + Int.tmod n d = n := Int.tdiv_add_tmod' n d
    refine ⟨Int.tdiv n d, Int.tmod n d, safe_div_int_eq n d default_val hd hnd2,
      safe_mod_int_eq n d hd hnd2, hsum, ?_, ?_, ?_⟩
    · rcases le_total 0 n with h | h
      · have hb := tmod_bounds_nonneg n d h hd
        rw [abs_of_nonneg hb.1]
        exact hb.2.1
      · have hb := tmod_bounds_nonpos n d h hd
        rw [abs_of_nonpos hb.1]
        omega
    · rcases le_total 0 n with h | h
      · have hb := tmod_bounds_nonneg n d h hd
        omega
      · have hb := tmod_bounds_nonpos n d h hd
        omega
    · intro hn
      unfold INT_MIN INT_MAX at *
      have hr : -2147483648 ≤ Int.tdiv n d * d ∧ Int.tdiv n d * d ≤ 2147483647 := by
        rcases le_total 0 n with h | h
        · have hb := tmod_bounds_nonneg n d h hd
          omega
        · have hb := tmod_bounds_nonpos n d h hd
          omega
      have hr2 : -2147483648 ≤ Int.tdiv n d * d + Int.tmod n d ∧
          Int.tdiv n d * d + Int.tmod n d ≤ 2147483647 := by
        rw [hsum]
        exact hn
      unfold smul sadd signed
      rw [if_pos hr, Option.some_bind, if_pos hr2, hsum]

/-- Witness for C22: `7 / 2` and `7 % 2` unsigned, `-7 / 2` and `-7 % 2` signed. -/
theorem div_mod_consistent_witness :
    (∃ q r : Nat, safe_div_uint 7 2 0 = some q ∧ safe_mod_uint 7 2 = some r ∧
      q * 2 + r = 7 ∧ r < 2 ∧
      (7 ≤ UINT_MAX → uadd 32 (umul 32 q 2) r = 7)) ∧
    (∃ q r : Int, safe_div_int (-7) 2 0 = some q ∧ safe_mod_int (-7) 2 = some r ∧
      q * 2 + r = -7 ∧ |r| < |(2 : Int)| ∧
      (r = 0 ∨ (0 < r ∧ (0 : Int) < -7) ∨ (r < 0 ∧ (-7 : Int) < 0)) ∧
      (INT_MIN ≤ -7 ∧ -7 ≤ INT_MAX →
        (smul INT_MIN INT_MAX q 2).bind (fun p => sadd INT_MIN INT_MAX p r) = some (-7))) :=
  div_mod_consistent 7 2 0 (-7) 2 0 (by decide) (by decide) (by decide)

/-- Evaluations of the division and modulo functions in each sign combination,
and at the pair `(INT_MIN, -1)`, where both native operators are undefined. -/
theorem div_mod_tests :
    safe_div_uint 7 2 0 = some 3 ∧ safe_mod_uint 7 2 = some 1 ∧
    safe_div_uint 7 0 9 = some 9 ∧ safe_mod_uint 7 0 = some 0 ∧
    safe_div_uint UINT_MAX UINT_MAX 0 = some 1 ∧ safe_mod_uint UINT_MAX UINT_MAX = some 0 ∧
    safe_div_int 7 2 0 = some 3 ∧ safe_mod_int 7 2 = some 1 ∧
    safe_div_int (-7) 2 0 = some (-3) ∧ safe_mod_int (-7) 2 = some (-1) ∧
    safe_div_int 7 (-2) 0 = some (-3) ∧ safe_mod_int 7 (-2) = some 1 ∧
    safe_div_int (-7) (-2) 0 = some 3 ∧ safe_mod_int (-7) (-2) = some (-1) ∧
    safe_div_int INT_MIN INT_MAX 0 = some (-1) ∧ safe_mod_int INT_MIN INT_MAX = some (-1) ∧
    safe_div_int INT_MIN 1 0 = some INT_MIN ∧ safe_mod_int INT_MIN 1 = some 0 ∧
    safe_div_int (-INT_MAX) (-1) 0 = some INT_MAX ∧ safe_mod_int (-INT_MAX) (-1) = some 0 ∧
    safe_div_int INT_MIN (-1) 0 = none ∧ safe_mod_int INT_MIN (-1) = none := by
  decide

end LibRaw
